import Mathlib

/-!
Verification development for the BMS watcher server.

The definitions below are a shallow embedding of the task-watch orchestrator:
`server/watcherManager.js` (WatcherManager), the HTTP route layer
(`server/index.js`), the legacy persistence module (`server/storage.js`),
and the `Watcher` class from `server/watcher.js` (whose source sits in the
second document of `Master Pro Last.js`, lines 1255-1567). Each definition's
doc comment names the source function and lines it embeds.
-/

namespace BMSWatch

/-- Task status strings used by `watcherManager.js`:
'starting' | 'running' | 'found' | 'stopped' | 'error'. -/
inductive Status where
  | starting
  | running
  | found
  | stopped
  | error
deriving DecidableEq, Repr

/-- A persisted task record: the fields built by `createTask`
(watcherManager.js:166-180) and kept by `safeTaskView` / the persistence
projection `({ watcher, ...rest }) => rest` (watcherManager.js:22-30, 96).
The live `watcher` handle is deliberately not part of this record. -/
structure Task where
  id : String
  location : Option String := none
  cinemaName : Option String := none
  cinemaUrl : Option String := none
  identifier : String := ""
  status : Status := .starting
  createdAt : String := ""
  href : Option String := none
  foundHref : Option String := none
  bookingSettings : Option String := none
deriving DecidableEq, Repr

/-- The `Watcher` state read by the manager (`server/watcher.js`, in
Master Pro Last.js:1262-1291): `running`, the `found` latch, `foundHref`,
and whether a live `page` is attached (we only track its presence — the
monitor's recovery branch tests `task.watcher.page`). The exposed binding
(Master Pro Last.js:1326-1337) sets `found = true` and records the href
only when `found` is still false; the href argument comes from the
page-side `done()` (Master Pro Last.js:1400-1412), which computes
`link.href || link.getAttribute('href') || null` — it can be null, since
`findLink` also matches anchors by text content. -/
structure WatcherS where
  running : Bool := false
  found : Bool := false
  foundHref : Option String := none
  page : Bool := false
deriving DecidableEq, Repr

/-- The synchronous prefix of `Watcher.stop()`
(Master Pro Last.js:1556-1561): `this.running = false; this.found = false;
this.foundHref = null` and both `clearTimeout`s all run before `stop`'s
first `await` (the `_closePageContext()` call at line 1562), i.e. inside
the caller's atomic stretch. The page is closed and nulled only later,
inside the awaited tail. -/
def stopSyncPrefix (w : WatcherS) : WatcherS :=
  { w with running := false, found := false, foundHref := none }

/-- A runtime task as held in `this.tasks`: the persisted record plus the
live `watcher` field (watcherManager.js:39, 74, 179). -/
structure RTask where
  task : Task
  watcher : Option WatcherS := none
deriving DecidableEq, Repr

/-! ## C1: browsing-session concurrency

Model of the underlying-session accounting of `WatcherManager`.
The constructor (watcherManager.js:33-34) stores `maxPages` (default 6);
`_createIncognitoPageForTask` (watcherManager.js:125-139) opens sessions. -/

/-- The session-hosting state of a `WatcherManager`: the configured ceiling
`maxPages` (watcherManager.js:34) and the number of currently open
incognito contexts/pages. -/
structure PageHost where
  maxPages : Nat
  openContexts : Nat
deriving DecidableEq, Repr

/-- Constructor state (watcherManager.js:33-38): `maxPages` is stored and
no contexts are open yet. -/
def mkPageHost (maxPages : Nat := 6) : PageHost :=
  { maxPages := maxPages, openContexts := 0 }

/-- `_createIncognitoPageForTask` (watcherManager.js:125-139): after
`_ensureBrowser()`, it unconditionally calls `browser.newContext(...)` and
`context.newPage()`. There is no admission check against `this.maxPages`
(which is never read after the constructor) and no waiting: one more
context/page is simply opened. -/
def createIncognitoPageForTask (h : PageHost) : PageHost :=
  { h with openContexts := h.openContexts + 1 }

/-- A burst of `n` session acquisitions (e.g. `n` concurrent task starts,
each of whose watcher calls the `pageFactory` of watcherManager.js:316). -/
def runBurst : Nat → PageHost → PageHost
  | 0, h => h
  | n + 1, h => runBurst n (createIncognitoPageForTask h)

theorem runBurst_openContexts (n : Nat) (h : PageHost) :
    (runBurst n h).openContexts = h.openContexts + n := by
  induction n generalizing h with
  | zero => simp [runBurst]
  | succ k ih =>
      simp [runBurst, createIncognitoPageForTask, ih]
      omega

theorem runBurst_maxPages (n : Nat) (h : PageHost) :
    (runBurst n h).maxPages = h.maxPages := by
  induction n generalizing h with
  | zero => rfl
  | succ k ih => simpa [runBurst, createIncognitoPageForTask] using ih _

/-- C1: the configured concurrency ceiling is not enforced. With the default
ceiling `maxPages = 6`, a burst of 7 session acquisitions leaves 7 underlying
contexts open simultaneously — `_createIncognitoPageForTask` opens a new
context unconditionally and never consults or waits on `maxPages` (which is
stored at watcherManager.js:34 and never read again): for every configured
ceiling `m` and burst size `n`, exactly `n` contexts end up open. -/
theorem c1_ceiling_not_enforced :
    (runBurst 7 (mkPageHost 6)).openContexts = 7 ∧
    (runBurst 7 (mkPageHost 6)).openContexts > (mkPageHost 6).maxPages ∧
    (∀ m n : Nat, (runBurst n (mkPageHost m)).openContexts = n ∧
      (runBurst n (mkPageHost m)).maxPages = m) := by
  refine ⟨by decide, by decide, ?_⟩
  intro m n
  exact ⟨by simpa [mkPageHost] using runBurst_openContexts n (mkPageHost m),
    runBurst_maxPages n (mkPageHost m)⟩

/-! ## C2 / C3: the found-completion monitor

A per-task interleaving machine for `_startTaskWatcher`'s monitor interval
(watcherManager.js:304-367) together with the Watcher latch and `stop()`
semantics from `server/watcher.js` (Master Pro Last.js:1255-1567) and the
other operations that touch the same task's status and watcher. JavaScript
runs callbacks atomically between `await` suspension points; each machine
action below is one such atomic stretch, and a trace of actions is one
legal scheduling. -/

/-- Where a monitor tick's asynchronous body currently stands: not started,
suspended at the best-effort href recovery
(`await task.watcher.page.evaluate`, watcherManager.js:336), suspended
inside `await task.watcher.stop()` (watcherManager.js:363), or completed. -/
inductive MPhase where
  | idle
  | awaitRecovery
  | awaitStop
  | finished
deriving DecidableEq, Repr

/-- One `setInterval` monitor registered by `_startTaskWatcher`
(watcherManager.js:327). `cleared` records that `clearInterval(monitor)` has
run for it; `fired` that its tick has executed the broadcast/automation
block of the found-completion sequence (watcherManager.js:347-361);
`phase` tracks its suspension state. -/
structure Monitor where
  cleared : Bool := false
  fired : Bool := false
  phase : MPhase := .idle
deriving DecidableEq, Repr

/-- The parts of one task's state read and written by the monitor logic:
the task's `status` and `foundHref`, the shared `task.watcher` slot, the
list of monitor intervals ever registered for the task, the number of times
the found-completion broadcast/automation block has executed, and the log
of broadcast event types. -/
structure MonState where
  status : Status
  foundHref : Option String
  watcher : Option WatcherS
  monitors : List Monitor
  seqCount : Nat
  events : List String
deriving DecidableEq, Repr

/-- State of a freshly created task (watcherManager.js:166-184): status
'starting', no `foundHref`, no watcher yet, a `taskCreated` broadcast. -/
def MonState.init : MonState :=
  { status := .starting, foundHref := none, watcher := none,
    monitors := [], seqCount := 0, events := ["taskCreated"] }

/-- A Watcher as the manager sees it right after a successful
`watcher.start()` (Master Pro Last.js:1292-1302, 1320-1323): `running` set,
latch unset, a live page attached. (The constructor initialises `running`
and `found` to false; `start()` sets `running = true` and
`_openPageAndAttach` assigns the page.) -/
def freshWatcher : WatcherS :=
  { running := true, found := false, foundHref := none, page := true }

/-- A freshly registered monitor interval (watcherManager.js:327). -/
def freshMonitor : Monitor := { cleared := false, fired := false, phase := .idle }

/-- Atomic actions on one task, each an `await`-free stretch of the source. -/
inductive MonAct where
  /-- `_startTaskWatcher(task)` (watcherManager.js:304-327): any existing
  watcher is stopped and replaced by a fresh started one, and a new monitor
  interval is registered. Previously registered monitor intervals are not
  cleared here; they only clear themselves on a later tick that observes
  `!task.watcher`. -/
  | startWatcher
  /-- The `createTask` background continuation (watcherManager.js:189):
  `if (!task.status || task.status === 'starting') task.status = 'running'`. -/
  | markRunning
  /-- The page-side `done()` calling the exposed binding
  (Master Pro Last.js:1326-1337, 1400-1412): if the latch is already set
  the call is ignored; otherwise `found = true` and `foundHref = href`,
  where `href = link.href || link.getAttribute('href') || null` may be
  null — `findLink` also matches anchors by text content. (`start()` is
  invoked without an `onFoundCallback`, watcherManager.js:322, so the
  binding's callback branch does nothing.) -/
  | latch (href : Option String)
  /-- A monitor tick firing (watcherManager.js:327-363), synchronous up to
  its first suspension: a cleared interval does nothing; a null
  `task.watcher` clears the interval; a set latch clears the interval,
  assigns `task.status = 'found'` and
  `task.foundHref = task.watcher.foundHref || task.foundHref || null`,
  and then either suspends at the best-effort recovery
  (`await task.watcher.page.evaluate`, lines 334-345 — taken exactly when
  `!task.foundHref && task.watcher.page`) or continues synchronously
  through the save, the `found`/`alarmStarted` broadcasts and the
  automation invocation (lines 347-361) and into `task.watcher.stop()`,
  whose synchronous prefix resets the latch
  (Master Pro Last.js:1556-1561) before the tick suspends inside the
  stop. -/
  | tickA (i : Nat)
  /-- Resumption of a tick suspended at the recovery `page.evaluate`, with
  the page's answer (`.catch(() => null)` permits none): `if (maybe)
  task.foundHref = maybe` (watcherManager.js:343), then the save, the
  broadcasts and the automation invocation, then `if (task.watcher)` its
  `stop()` — synchronous latch reset, then suspension — else the tick is
  done (watcherManager.js:347-364). -/
  | tickRecover (i : Nat) (recovered : Option String)
  /-- Resumption of `await task.watcher.stop()` (watcherManager.js:363):
  `task.watcher = null`. -/
  | tickFinishStop (i : Nat)
  /-- `stopTask` on this task (watcherManager.js:203-215): watcher stopped
  and nulled, status 'stopped', immediate save, `stopped` broadcast. -/
  | stopOp
  /-- `shutdown()`'s effect on this task (watcherManager.js:385-388): the
  watcher, if any, is stopped (its synchronous prefix resets the latch)
  but the `task.watcher` reference is not nulled; `t.status = 'stopped'`
  unconditionally; `task.foundHref` is untouched. -/
  | shutdownOp
deriving DecidableEq, Repr

/-- One atomic step of the monitor machine. -/
def monStep (s : MonState) : MonAct → MonState
  | .startWatcher =>
      { s with watcher := some freshWatcher, monitors := s.monitors ++ [freshMonitor] }
  | .markRunning =>
      if s.status = .starting then { s with status := .running } else s
  | .latch href =>
      match s.watcher with
      | none => s
      | some w =>
          if w.found then s
          else { s with watcher := some { w with found := true, foundHref := href } }
  | .tickA i =>
      match s.monitors[i]? with
      | none => s
      | some m =>
          if m.cleared then s
          else
            match s.watcher with
            | none => { s with monitors := s.monitors.set i { m with cleared := true } }
            | some w =>
                if w.found then
                  if (w.foundHref.orElse (fun _ => s.foundHref)).isNone && w.page then
                    { s with
                        monitors := s.monitors.set i
                          { m with cleared := true, phase := .awaitRecovery },
                        status := .found,
                        foundHref := w.foundHref.orElse (fun _ => s.foundHref) }
                  else
                    { s with
                        monitors := s.monitors.set i
                          { m with cleared := true, fired := true, phase := .awaitStop },
                        status := .found,
                        foundHref := w.foundHref.orElse (fun _ => s.foundHref),
                        seqCount := s.seqCount + 1,
                        events := s.events ++ ["found", "alarmStarted"],
                        watcher := some (stopSyncPrefix w) }
                else s
  | .tickRecover i recovered =>
      match s.monitors[i]? with
      | none => s
      | some m =>
          if m.phase = .awaitRecovery then
            match s.watcher with
            | some w =>
                { s with
                    monitors := s.monitors.set i
                      { m with fired := true, phase := .awaitStop },
                    foundHref := recovered.orElse (fun _ => s.foundHref),
                    seqCount := s.seqCount + 1,
                    events := s.events ++ ["found", "alarmStarted"],
                    watcher := some (stopSyncPrefix w) }
            | none =>
                { s with
                    monitors := s.monitors.set i
                      { m with fired := true, phase := .finished },
                    foundHref := recovered.orElse (fun _ => s.foundHref),
                    seqCount := s.seqCount + 1,
                    events := s.events ++ ["found", "alarmStarted"] }
          else s
  | .tickFinishStop i =>
      match s.monitors[i]? with
      | none => s
      | some m =>
          if m.phase = .awaitStop then
            { s with watcher := none,
                     monitors := s.monitors.set i { m with phase := .finished } }
          else s
  | .stopOp =>
      { s with watcher := none, status := .stopped,
               events := s.events ++ ["stopped"] }
  | .shutdownOp =>
      { s with status := .stopped, watcher := s.watcher.map stopSyncPrefix }

/-- Run a trace of actions from the freshly created task. -/
def monRun (acts : List MonAct) : MonState :=
  acts.foldl monStep MonState.init

/-- Number of `_startTaskWatcher` calls in a trace. -/
def countStarts (acts : List MonAct) : Nat :=
  (acts.filter (fun a => a == MonAct.startWatcher)).length

/-- Number of monitors whose tick has executed the found-completion
broadcast/automation block. -/
def firedCount (ms : List Monitor) : Nat :=
  ms.countP (fun m => m.fired)

/-- Whether a trace contains an explicit stop or a shutdown. -/
def hasStopOrShutdown (acts : List MonAct) : Bool :=
  acts.any (fun a => a == MonAct.stopOp || a == MonAct.shutdownOp)

/-- A legal scheduling in which the found-completion sequence runs twice
for one task: the watcher is restarted (e.g. via `reloadTask` →
`restartAllWatchers`, watcherManager.js:259-302) while the first monitor
interval is still alive, the page-side binding latches with a **null**
href (anchor matched by text), and both monitors' ticks observe the still
set latch and suspend at the href-recovery `await`; each then resumes and
runs the broadcast/automation block. With a null latched href the latch is
reset only inside `stop()`, which no tick reaches before suspending at the
recovery — so the stale monitor can fire where a non-null-href run could
not. -/
def doubleFireTrace : List MonAct :=
  [.startWatcher, .startWatcher, .latch none,
   .tickA 0, .tickA 1, .tickRecover 0 none, .tickRecover 1 none,
   .tickFinishStop 0, .tickFinishStop 1]

/-- C2 counterexample: the found-completion sequence is not guarded by the
Task's status — each monitor tick checks only `task.watcher.found`
(watcherManager.js:329) — so after a watcher restart leaves a stale monitor
interval alive and the binding latches a null href, the sequence executes
twice for the same task: `seqCount` reaches 2 and the `found` /
`alarmStarted` broadcasts (and the automation invocation) are duplicated,
even though `task.status` was already 'found' (and `seqCount` already 1)
when the second block ran. -/
theorem c2_double_execution :
    (monRun doubleFireTrace).seqCount = 2 ∧
    (monRun (doubleFireTrace.take 6)).status = .found ∧
    (monRun (doubleFireTrace.take 6)).seqCount = 1 ∧
    (monRun doubleFireTrace).events =
      ["taskCreated", "found", "alarmStarted", "found", "alarmStarted"] := by
  refine ⟨by decide, by decide, by decide, by decide⟩

/-- Local well-formedness of one monitor interval: a monitor that has run
the broadcast/automation block has cleared its interval (both happen in the
same tick), and a monitor suspended at the recovery `await` has cleared its
interval but not yet run the block. -/
def MonOk (m : Monitor) : Prop :=
  (m.fired = true → m.cleared = true) ∧
  (m.phase = MPhase.awaitRecovery → m.fired = false ∧ m.cleared = true)

/-- Every registered monitor is locally well-formed. -/
def ClearedInv (s : MonState) : Prop :=
  ∀ m ∈ s.monitors, MonOk m

theorem countP_set {α : Type} (p : α → Bool) (l : List α) (i : Nat) (a b : α)
    (h : l[i]? = some a) :
    (l.set i b).countP p + (if p a then 1 else 0) =
      l.countP p + (if p b then 1 else 0) := by
  induction l generalizing i with
  | nil => simp at h
  | cons x xs ih =>
      cases i with
      | zero =>
          simp only [List.getElem?_cons_zero] at h
          cases h
          simp only [List.set, List.countP_cons]
          cases hpb : p b <;> cases hpa : p a <;> simp [hpb, hpa]
      | succ j =>
          simp only [List.getElem?_cons_succ] at h
          simp only [List.set, List.countP_cons]
          have := ih j h
          cases hpx : p x <;> simp [hpx] <;> omega

theorem monStep_effect (s : MonState) (a : MonAct) :
    (a ≠ MonAct.startWatcher ∧ (monStep s a).monitors = s.monitors ∧
      (monStep s a).seqCount = s.seqCount) ∨
    (a = MonAct.startWatcher ∧ (monStep s a).monitors = s.monitors ++ [freshMonitor] ∧
      (monStep s a).seqCount = s.seqCount) ∨
    (∃ i m m', a ≠ MonAct.startWatcher ∧ s.monitors[i]? = some m ∧
      m'.fired = m.fired ∧ (MonOk m → MonOk m') ∧
      (monStep s a).monitors = s.monitors.set i m' ∧
      (monStep s a).seqCount = s.seqCount) ∨
    (∃ i m m', a ≠ MonAct.startWatcher ∧ s.monitors[i]? = some m ∧
      (MonOk m → m.fired = false) ∧ m'.fired = true ∧ (MonOk m → MonOk m') ∧
      (monStep s a).monitors = s.monitors.set i m' ∧
      (monStep s a).seqCount = s.seqCount + 1) := by
  cases a with
  | startWatcher => exact Or.inr (Or.inl ⟨rfl, rfl, rfl⟩)
  | markRunning =>
      refine Or.inl ⟨fun hc => MonAct.noConfusion hc, ?_, ?_⟩ <;>
        · simp only [monStep]
          split <;> rfl
  | latch h =>
      refine Or.inl ⟨fun hc => MonAct.noConfusion hc, ?_, ?_⟩ <;>
        · simp only [monStep]
          rcases s.watcher with _ | w
          · rfl
          · by_cases hf : w.found = true <;> simp [hf]
  | tickA i =>
      cases hm : s.monitors[i]? with
      | none =>
          refine Or.inl ⟨fun hc => MonAct.noConfusion hc, ?_, ?_⟩ <;>
            simp [monStep, hm]
      | some m =>
          by_cases hc : m.cleared
          · refine Or.inl ⟨fun hcon => MonAct.noConfusion hcon, ?_, ?_⟩ <;>
              simp [monStep, hm, hc]
          · cases hw : s.watcher with
            | none =>
                refine Or.inr (Or.inr (Or.inl
                  ⟨i, m, { m with cleared := true },
                   fun hcon => MonAct.noConfusion hcon, hm, rfl, ?_, ?_, ?_⟩))
                · intro hmok
                  exact ⟨fun _ => rfl, fun hp => ⟨(hmok.2 hp).1, rfl⟩⟩
                · simp [monStep, hm, hc, hw]
                · simp [monStep, hm, hc, hw]
            | some w =>
                by_cases hwf : w.found = true
                · by_cases hrec :
                    ((w.foundHref.orElse (fun _ => s.foundHref)).isNone && w.page) = true
                  · refine Or.inr (Or.inr (Or.inl
                      ⟨i, m, { m with cleared := true, phase := .awaitRecovery },
                       fun hcon => MonAct.noConfusion hcon, hm, rfl, ?_, ?_, ?_⟩))
                    · intro hmok
                      refine ⟨fun _ => rfl, fun _ => ⟨?_, rfl⟩⟩
                      cases hf : m.fired
                      · rfl
                      · exact absurd (hmok.1 hf) hc
                    · simp [monStep, hm, hc, hw, hwf, hrec]
                    · simp [monStep, hm, hc, hw, hwf, hrec]
                  · refine Or.inr (Or.inr (Or.inr
                      ⟨i, m, { m with cleared := true, fired := true, phase := .awaitStop },
                       fun hcon => MonAct.noConfusion hcon, hm, ?_, rfl, ?_, ?_, ?_⟩))
                    · intro hmok
                      cases hf : m.fired
                      · rfl
                      · exact absurd (hmok.1 hf) hc
                    · intro _
                      exact ⟨fun _ => rfl, fun hp => MPhase.noConfusion hp⟩
                    · simp [monStep, hm, hc, hw, hwf, hrec]
                    · simp [monStep, hm, hc, hw, hwf, hrec]
                · refine Or.inl ⟨fun hcon => MonAct.noConfusion hcon, ?_, ?_⟩ <;>
                    simp [monStep, hm, hc, hw, hwf]
  | tickRecover i r =>
      cases hm : s.monitors[i]? with
      | none =>
          refine Or.inl ⟨fun hc => MonAct.noConfusion hc, ?_, ?_⟩ <;>
            simp [monStep, hm]
      | some m =>
          by_cases hp : m.phase = MPhase.awaitRecovery
          · cases hw : s.watcher with
            | some w =>
                refine Or.inr (Or.inr (Or.inr
                  ⟨i, m, { m with fired := true, phase := .awaitStop },
                   fun hcon => MonAct.noConfusion hcon, hm,
                   fun hmok => (hmok.2 hp).1, rfl, ?_, ?_, ?_⟩))
                · intro hmok
                  refine ⟨fun _ => (hmok.2 hp).2, fun hcon => MPhase.noConfusion hcon⟩
                · simp [monStep, hm, hp, hw]
                · simp [monStep, hm, hp, hw]
            | none =>
                refine Or.inr (Or.inr (Or.inr
                  ⟨i, m, { m with fired := true, phase := .finished },
                   fun hcon => MonAct.noConfusion hcon, hm,
                   fun hmok => (hmok.2 hp).1, rfl, ?_, ?_, ?_⟩))
                · intro hmok
                  refine ⟨fun _ => (hmok.2 hp).2, fun hcon => MPhase.noConfusion hcon⟩
                · simp [monStep, hm, hp, hw]
                · simp [monStep, hm, hp, hw]
          · refine Or.inl ⟨fun hcon => MonAct.noConfusion hcon, ?_, ?_⟩ <;>
              simp [monStep, hm, hp]
  | tickFinishStop i =>
      cases hm : s.monitors[i]? with
      | none =>
          refine Or.inl ⟨fun hc => MonAct.noConfusion hc, ?_, ?_⟩ <;>
            simp [monStep, hm]
      | some m =>
          by_cases hp : m.phase = MPhase.awaitStop
          · refine Or.inr (Or.inr (Or.inl
              ⟨i, m, { m with phase := .finished },
               fun hcon => MonAct.noConfusion hcon, hm, rfl, ?_, ?_, ?_⟩))
            · intro hmok
              exact ⟨hmok.1, fun hcon => MPhase.noConfusion hcon⟩
            · simp [monStep, hm, hp]
            · simp [monStep, hm, hp]
          · refine Or.inl ⟨fun hcon => MonAct.noConfusion hcon, ?_, ?_⟩ <;>
              simp [monStep, hm, hp]
  | stopOp => exact Or.inl ⟨fun hc => MonAct.noConfusion hc, rfl, rfl⟩
  | shutdownOp => exact Or.inl ⟨fun hc => MonAct.noConfusion hc, rfl, rfl⟩

theorem monStep_ClearedInv (s : MonState) (a : MonAct) (hInv : ClearedInv s) :
    ClearedInv (monStep s a) := by
  rcases monStep_effect s a with ⟨_, hmon, _⟩ | ⟨_, hmon, _⟩ |
    ⟨i, m, m', _, hm, _, himp, hmon, _⟩ | ⟨i, m, m', _, hm, _, _, himp, hmon, _⟩ <;>
    intro x hx <;> rw [hmon] at hx
  · exact hInv x hx
  · rcases List.mem_append.mp hx with h | h
    · exact hInv x h
    · simp at h
      subst h
      exact ⟨fun hf => by simp [freshMonitor] at hf,
        fun hp => by simp [freshMonitor] at hp⟩
  · rcases List.mem_or_eq_of_mem_set hx with h | h
    · exact hInv x h
    · subst h
      exact himp (hInv m (List.getElem?_mem hm))
  · rcases List.mem_or_eq_of_mem_set hx with h | h
    · exact hInv x h
    · subst h
      exact himp (hInv m (List.getElem?_mem hm))

theorem monStep_seq (s : MonState) (a : MonAct) (hInv : ClearedInv s) :
    (monStep s a).seqCount + firedCount s.monitors =
      s.seqCount + firedCount (monStep s a).monitors := by
  rcases monStep_effect s a with ⟨_, hmon, hseq⟩ | ⟨_, hmon, hseq⟩ |
    ⟨i, m, m', _, hm, hff, _, hmon, hseq⟩ | ⟨i, m, m', _, hm, hmf, hmf', _, hmon, hseq⟩
  · rw [hmon, hseq]
  · rw [hmon, hseq]
    simp [firedCount, List.countP_append, List.countP_cons, freshMonitor]
  · rw [hmon, hseq]
    have hcnt := countP_set (fun x => x.fired) s.monitors i m m' hm
    simp only [firedCount]
    cases hmfx : m.fired <;> simp [hmfx, hff] at hcnt <;> omega
  · have hfz : m.fired = false := hmf (hInv m (List.getElem?_mem hm))
    rw [hmon, hseq]
    have hcnt := countP_set (fun x => x.fired) s.monitors i m m' hm
    simp only [firedCount]
    simp [hfz, hmf'] at hcnt
    omega

theorem monStep_len (s : MonState) (a : MonAct) :
    (monStep s a).monitors.length =
      s.monitors.length + (if a = MonAct.startWatcher then 1 else 0) := by
  rcases monStep_effect s a with ⟨hne, hmon, _⟩ | ⟨heq, hmon, _⟩ |
    ⟨i, m, m', hne, _, _, _, hmon, _⟩ | ⟨i, m, m', hne, _, _, _, _, hmon, _⟩ <;> rw [hmon]
  · simp [hne]
  · simp [heq]
  · simp [List.length_set, hne]
  · simp [List.length_set, hne]

theorem countStarts_cons (a : MonAct) (rest : List MonAct) :
    countStarts (a :: rest) =
      (if a = MonAct.startWatcher then 1 else 0) + countStarts rest := by
  simp only [countStarts, List.filter_cons]
  by_cases h : a = MonAct.startWatcher
  · simp [h, Nat.add_comm]
  · simp [h]

theorem monFold_counts (acts : List MonAct) (s : MonState) (hInv : ClearedInv s) :
    ClearedInv (acts.foldl monStep s) ∧
    (acts.foldl monStep s).seqCount + firedCount s.monitors =
      s.seqCount + firedCount (acts.foldl monStep s).monitors ∧
    (acts.foldl monStep s).monitors.length =
      s.monitors.length + countStarts acts := by
  induction acts generalizing s with
  | nil => exact ⟨hInv, rfl, by simp [countStarts]⟩
  | cons a rest ih =>
      have h1 := monStep_ClearedInv s a hInv
      have h2 := monStep_seq s a hInv
      have h3 := monStep_len s a
      obtain ⟨g1, g2, g3⟩ := ih (monStep s a) h1
      rw [countStarts_cons]
      refine ⟨by simpa [List.foldl_cons] using g1, ?_, ?_⟩
      · simp only [List.foldl_cons]
        omega
      · simp only [List.foldl_cons]
        by_cases ha : a = MonAct.startWatcher
        · subst ha
          simp at h3 ⊢
          omega
        · simp [ha] at h3 ⊢
          omega

/-- C2 (amended): each registered monitor interval runs the
broadcast/automation block of the found-completion sequence at most once —
the tick that observes the latch clears its own interval — so with at most
one `_startTaskWatcher` call the sequence executes at most once per task
however often the Detector callback fires; on a single-monitor trace,
duplicate latch signals and repeated ticks still yield exactly one
execution; and with a **non-null** latched href even a stale second monitor
cannot re-fire, because `stop()`'s synchronous prefix has already reset the
latch inside the first tick's atomic stretch. The guard is the per-watcher
latch plus interval clearing, not the Task's status. -/
theorem c2_once_per_monitor :
    (∀ acts : List MonAct, countStarts acts ≤ 1 → (monRun acts).seqCount ≤ 1) ∧
    (monRun [.startWatcher, .latch (some "https://x/ET1"),
      .latch (some "https://x/ET2"), .tickA 0, .tickA 0, .tickFinishStop 0,
      .tickA 0]).seqCount = 1 ∧
    (monRun [.startWatcher, .startWatcher, .latch (some "https://x/ET1"),
      .tickA 0, .tickA 1, .tickFinishStop 0, .tickA 1]).seqCount = 1 := by
  refine ⟨?_, by decide, by decide⟩
  intro acts hle
  have hInv0 : ClearedInv MonState.init := by
    intro m hm
    simp [MonState.init] at hm
  obtain ⟨_, h2, h3⟩ := monFold_counts acts MonState.init hInv0
  have hfc : firedCount (acts.foldl monStep MonState.init).monitors ≤
      (acts.foldl monStep MonState.init).monitors.length :=
    List.countP_le_length _
  have e1 : firedCount MonState.init.monitors = 0 := rfl
  have e2 : MonState.init.seqCount = 0 := rfl
  have e3 : MonState.init.monitors.length = 0 := rfl
  show (acts.foldl monStep MonState.init).seqCount ≤ 1
  omega

/-- Witness for `c2_once_per_monitor`: a concrete single-monitor trace with
a duplicated tick satisfies the at-most-once bound. -/
theorem c2_once_per_monitor_witness :
    (monRun [.startWatcher, .latch (some "https://x/ET1"),
      .tickA 0, .tickA 0]).seqCount ≤ 1 :=
  c2_once_per_monitor.1 _ (by decide)

/-- A task is created, its watcher started, the Detector finds the link
with a non-null href, the monitor completes the found sequence, and the
process then shuts down. -/
def foundThenShutdownTrace : List MonAct :=
  [.startWatcher, .markRunning, .latch (some "https://in.bookmyshow.com/m/ET2"),
   .tickA 0, .tickFinishStop 0, .shutdownOp]

/-- The binding latches a null href (anchor matched by text content), and
the best-effort recovery also returns null; no stop and no shutdown. -/
def nullHrefFoundTrace : List MonAct :=
  [.startWatcher, .markRunning, .latch none, .tickA 0, .tickRecover 0 none,
   .tickFinishStop 0]

/-- C3 counterexample, refuting the claimed iff in both directions:
(a) `shutdown()` (watcherManager.js:383-389) sets `t.status = 'stopped'`
unconditionally while leaving `foundHref` untouched, so after a found
task's shutdown the task carries a non-null `foundHref` with status
'stopped'; (b) on a stop- and shutdown-free run where the page-side
binding reports a null href (Master Pro Last.js:1402) and the recovery
`page.evaluate` also yields null, the task ends with status 'found' and a
null `foundHref`. -/
theorem c3_foundHref_iff_refuted :
    ((monRun foundThenShutdownTrace).foundHref =
        some "https://in.bookmyshow.com/m/ET2" ∧
      (monRun foundThenShutdownTrace).status = .stopped) ∧
    (hasStopOrShutdown nullHrefFoundTrace = false ∧
      (monRun nullHrefFoundTrace).status = .found ∧
      (monRun nullHrefFoundTrace).foundHref = none) := by
  refine ⟨⟨by decide, by decide⟩, by decide, by decide, by decide⟩

/-- The direction of the claimed invariant that the code does maintain
outside stop/shutdown: a non-null `foundHref` is only ever assigned by the
found-completion sequence, whose tick has already set status 'found'; a
monitor suspended at the recovery `await` likewise implies the status is
already 'found'. -/
def HrefInv (s : MonState) : Prop :=
  (s.foundHref.isSome = true → s.status = .found) ∧
  (∀ m ∈ s.monitors, m.phase = MPhase.awaitRecovery → s.status = .found)

theorem monStep_HrefInv (s : MonState) (a : MonAct)
    (hna : a ≠ MonAct.stopOp) (hnb : a ≠ MonAct.shutdownOp)
    (h : HrefInv s) : HrefInv (monStep s a) := by
  obtain ⟨h1, h2⟩ := h
  cases a with
  | startWatcher =>
      refine ⟨h1, ?_⟩
      intro m hm hp
      rcases List.mem_append.mp hm with hx | hx
      · exact h2 m hx hp
      · simp at hx
        subst hx
        simp [freshMonitor] at hp
  | markRunning =>
      by_cases hst : s.status = .starting
      · refine ⟨?_, ?_⟩ <;> simp only [monStep, hst, if_pos]
        · intro hs
          exact absurd (hst.symm.trans (h1 hs)) (by decide)
        · intro m hm hp
          exact absurd (hst.symm.trans (h2 m hm hp)) (by decide)
      · constructor <;> simp only [monStep, if_neg hst]
        · exact h1
        · exact h2
  | latch href =>
      cases hw : s.watcher with
      | none =>
          constructor <;> simp only [monStep, hw]
          · exact h1
          · exact h2
      | some w =>
          by_cases hwf : w.found = true
          · constructor <;> simp only [monStep, hw, if_pos hwf]
            · exact h1
            · exact h2
          · constructor <;> simp only [monStep, hw, if_neg hwf]
            · exact h1
            · exact h2
  | tickA i =>
      cases hm : s.monitors[i]? with
      | none =>
          constructor <;> simp only [monStep, hm]
          · exact h1
          · exact h2
      | some m =>
          by_cases hc : m.cleared = true
          · constructor <;> simp only [monStep, hm, if_pos hc]
            · exact h1
            · exact h2
          · cases hw : s.watcher with
            | none =>
                constructor <;> simp only [monStep, hm, if_neg hc, hw]
                · exact h1
                · intro x hx hp
                  rcases List.mem_or_eq_of_mem_set hx with hy | hy
                  · exact h2 x hy hp
                  · subst hy
                    exact h2 m (List.getElem?_mem hm) hp
            | some w =>
                by_cases hwf : w.found = true
                · by_cases hrec :
                    ((w.foundHref.orElse (fun _ => s.foundHref)).isNone && w.page) = true
                  · constructor <;>
                      simp only [monStep, hm, if_neg hc, hw, if_pos hwf, hrec, if_pos]
                    · intro _
                      trivial
                    · intro x hx hp
                      trivial
                  · constructor <;>
                      simp only [monStep, hm, if_neg hc, hw, if_pos hwf, hrec]
                    · intro _
                      simp [hrec]
                    · intro x hx hp
                      simp [hrec]
                · constructor <;> simp only [monStep, hm, if_neg hc, hw, if_neg hwf]
                  · exact h1
                  · exact h2
  | tickRecover i r =>
      cases hm : s.monitors[i]? with
      | none =>
          constructor <;> simp only [monStep, hm]
          · exact h1
          · exact h2
      | some m =>
          by_cases hp : m.phase = MPhase.awaitRecovery
          · have hst : s.status = .found := h2 m (List.getElem?_mem hm) hp
            cases hw : s.watcher with
            | some w =>
                constructor <;> simp only [monStep, hm, if_pos hp, hw]
                · intro _
                  exact hst
                · intro x hx hq
                  exact hst
            | none =>
                constructor <;> simp only [monStep, hm, if_pos hp, hw]
                · intro _
                  exact hst
                · intro x hx hq
                  exact hst
          · constructor <;> simp only [monStep, hm, if_neg hp]
            · exact h1
            · exact h2
  | tickFinishStop i =>
      cases hm : s.monitors[i]? with
      | none =>
          constructor <;> simp only [monStep, hm]
          · exact h1
          · exact h2
      | some m =>
          by_cases hp : m.phase = MPhase.awaitStop
          · constructor <;> simp only [monStep, hm, if_pos hp]
            · exact h1
            · intro x hx hq
              rcases List.mem_or_eq_of_mem_set hx with hy | hy
              · exact h2 x hy hq
              · subst hy
                simp at hq
          · constructor <;> simp only [monStep, hm, if_neg hp]
            · exact h1
            · exact h2
  | stopOp => exact absurd rfl hna
  | shutdownOp => exact absurd rfl hnb

theorem monFold_HrefInv (acts : List MonAct) (s : MonState)
    (hacts : ∀ a ∈ acts, a ≠ MonAct.stopOp ∧ a ≠ MonAct.shutdownOp)
    (h : HrefInv s) : HrefInv (acts.foldl monStep s) := by
  induction acts generalizing s with
  | nil => exact h
  | cons a rest ih =>
      have ha := hacts a (List.mem_cons_self a rest)
      exact ih (monStep s a)
        (fun x hx => hacts x (List.mem_cons_of_mem a hx))
        (monStep_HrefInv s a ha.1 ha.2 h)

/-- C3 (amended): on every schedule of watcher starts, latch signals and
monitor ticks that contains no explicit stop and no shutdown, a non-null
`foundHref` implies the task's status is 'found' (the assigning tick set
both, watcherManager.js:331-343). The converse direction fails — the
binding can latch a null href and the recovery can also return null, so
'found' with null `foundHref` is reachable — and explicit stop and
shutdown break this direction too by overwriting status with 'stopped'
while retaining `foundHref` (see the counterexample); delete removes the
task entirely. -/
theorem c3_foundHref_implies_found (acts : List MonAct)
    (h : hasStopOrShutdown acts = false)
    (hh : (monRun acts).foundHref.isSome = true) :
    (monRun acts).status = .found := by
  have hacts : ∀ a ∈ acts, a ≠ MonAct.stopOp ∧ a ≠ MonAct.shutdownOp := by
    intro a ha
    have h' := List.any_eq_false.mp h a ha
    constructor
    · intro hcon
      exact h' (by simp [hcon])
    · intro hcon
      exact h' (by simp [hcon])
  have hinit : HrefInv MonState.init := by
    constructor
    · intro hsome
      simp [MonState.init] at hsome
    · intro m hm
      simp [MonState.init] at hm
  exact (monFold_HrefInv acts MonState.init hacts hinit).1 hh

/-- Witness for `c3_foundHref_implies_found`: a stop-free trace that
latches a non-null href ends with a non-null `foundHref` and status
'found'. -/
theorem c3_foundHref_implies_found_witness :
    (monRun [MonAct.startWatcher, MonAct.latch (some "https://x/ET3"),
      MonAct.tickA 0]).status = .found :=
  c3_foundHref_implies_found _ (by decide) (by decide)


/-! ## C4 / C5 / C6 / C10: registry, persistence and lifecycle operations

A state model of the `WatcherManager`'s task registry and its persistence
machinery (watcherManager.js:33-60, 93-111, 166-243, 383-395) together with
the HTTP task-creation route (`server/index.js`). -/

/-- A `setTimeout` handle created by the debounced save
(watcherManager.js:110): its deadline, whether `clearTimeout` has cancelled
it, and whether its callback has already run. -/
structure STimer where
  due : Nat
  cancelled : Bool
  fired : Bool
deriving DecidableEq, Repr

/-- The manager state relevant to the registry and persistence: `this.tasks`
(watcherManager.js:39); `_lastSavedJson` (watcherManager.js:44) modelled as
the projected task list that was last written, since `JSON.stringify` of
equal data yields equal strings; the `setTimeout` timers ever created by the
debounced save, with `_saveTimer` (watcherManager.js:43) pointing at the
most recently created one; the log of physical snapshot writes (each entry
is the content written); and the broadcast log. -/
structure WM where
  tasks : List RTask
  lastSavedJson : Option (List Task)
  timers : List STimer
  saveTimer : Option Nat
  writes : List (List Task)
  events : List String
deriving DecidableEq, Repr

/-- The persisted projection `this.tasks.map(({ watcher, ...rest }) => rest)`
(watcherManager.js:96): every Task field, without the live watcher handle. -/
def persistedView (wm : WM) : List Task := wm.tasks.map (fun t => t.task)

/-- `_saveTasksToFileImmediate()` (watcherManager.js:93-105): serialize the
tasks without their watcher handles; skip the write when the serialization
equals `_lastSavedJson`; otherwise write the snapshot file and remember the
content. (The `if (!this.tasksFile) return` guard is omitted: persistence is
configured, as in `server/index.js`, which always passes `tasksFile`.) -/
def saveTasksToFileImmediate (wm : WM) : WM :=
  if wm.lastSavedJson = some (persistedView wm) then wm
  else { wm with writes := wm.writes ++ [persistedView wm],
                 lastSavedJson := some (persistedView wm) }

/-- `clearTimeout(this._saveTimer)` (watcherManager.js:109): the pointed-at
timer, if any, is cancelled. -/
def cancelSaveTimer (ts : List STimer) : Option Nat → List STimer
  | none => ts
  | some i =>
      match ts[i]? with
      | none => ts
      | some t => ts.set i { t with cancelled := true }

/-- `_saveTasksToFile(debounceMs = 300)` (watcherManager.js:107-111): cancel
any pending timer, then register a fresh one due at `now + 300` and point
`_saveTimer` at it. No write happens here. -/
def saveTasksToFileDebounced (now : Nat) (wm : WM) : WM :=
  let ts := cancelSaveTimer wm.timers wm.saveTimer
  { wm with
      timers := ts ++ [{ due := now + 300, cancelled := false, fired := false }],
      saveTimer := some ts.length }

/-- The `setTimeout` callback of timer `i` running (watcherManager.js:110):
if the timer was neither cancelled nor already run it marks itself done and
calls `_saveTasksToFileImmediate()`. The callback does not clear
`_saveTimer`. -/
def fireSaveTimer (i : Nat) (wm : WM) : WM :=
  match wm.timers[i]? with
  | none => wm
  | some t =>
      if t.cancelled || t.fired then wm
      else
        saveTasksToFileImmediate
          { wm with timers := wm.timers.set i { t with fired := true } }

/-- A burst of debounced-save calls at the given times
(e.g. K rapid `update`s to one task within one quiet window). -/
def schedSaves (times : List Nat) (wm : WM) : WM :=
  times.foldl (fun w t => saveTasksToFileDebounced t w) wm

/-- The timeout callbacks of the given timer indices running, in any order
and possibly repeatedly. -/
def fireTimers (is : List Nat) (wm : WM) : WM :=
  is.foldl (fun w i => fireSaveTimer i w) wm

/-- `createTask(spec)` (watcherManager.js:166-201), synchronous part: build
the task record — `location`/`cinemaName`/`cinemaUrl`/`bookingSettings` are
`x || null`, `identifier` is coerced to a string, status 'starting', `href`
initialised to the cinema URL, `foundHref` null — push it, schedule a
debounced save, broadcast `taskCreated`, and return the id. The id string
`task-${Date.now()}-${Math.random().toString(36).slice(2,5)}` is abstracted
as the `idStr` input; the watcher start runs asynchronously afterwards and
is not part of the synchronous return. -/
def createTask (idStr createdAt : String)
    (location cinemaName cinemaUrl : Option String) (identifier : String)
    (bookingSettings : Option String) (now : Nat) (wm : WM) : String × WM :=
  let task : Task :=
    { id := idStr, location := location, cinemaName := cinemaName,
      cinemaUrl := cinemaUrl, identifier := identifier, status := .starting,
      createdAt := createdAt, href := cinemaUrl, foundHref := none,
      bookingSettings := bookingSettings }
  let wm1 := { wm with tasks := wm.tasks ++ [{ task := task, watcher := none }] }
  let wm2 := saveTasksToFileDebounced now wm1
  (idStr, { wm2 with events := wm2.events ++ ["taskCreated"] })

/-- JavaScript `x || null` on a string: empty (falsy) becomes null. -/
def strToOpt (s : String) : Option String := if s = "" then none else some s

/-- `app.post('/api/tasks')` (server/index.js): the request is rejected with
an HTTP 400 error body before the manager is touched unless `location`,
`cinemaUrl` and `identifier` are all non-empty
(`if (!location || !cinemaUrl || !identifier)`); otherwise
`manager.createTask` runs and the id is returned. Empty strings model
absent or empty body fields (both are falsy). -/
def apiCreateTask (location cinemaName cinemaUrl identifier : String)
    (bookingSettings : Option String) (idStr createdAt : String) (now : Nat)
    (wm : WM) : Except String (String × WM) :=
  if location = "" ∨ cinemaUrl = "" ∨ identifier = "" then
    .error "location, cinemaUrl, identifier required"
  else
    .ok (createTask idStr createdAt (strToOpt location) (strToOpt cinemaName)
      (strToOpt cinemaUrl) identifier bookingSettings now wm)

/-- `stopTask(id)` (watcherManager.js:203-223): find the task; an unknown id
logs a warning and returns false with no state change; otherwise the watcher
is stopped and nulled, status set to 'stopped', an immediate (non-debounced)
save runs and a `stopped` event is broadcast; returns true. -/
def stopTask (id : String) (wm : WM) : Bool × WM :=
  match wm.tasks.findIdx? (fun t => t.task.id == id) with
  | none => (false, wm)
  | some i =>
      match wm.tasks[i]? with
      | none => (false, wm)
      | some t =>
          let t' : RTask :=
            { task := { t.task with status := .stopped }, watcher := none }
          let wm1 := saveTasksToFileImmediate { wm with tasks := wm.tasks.set i t' }
          (true, { wm1 with events := wm1.events ++ ["stopped"] })

/-- Observable steps of `deleteTask`, in program order. -/
inductive DelStep where
  | stopWatcher (id : String)
  | removeFromRegistry (id : String)
  | saveNow
  | broadcastDeleted (id : String)
deriving DecidableEq, Repr

/-- `deleteTask(id)` (watcherManager.js:225-243): an unknown id logs a
warning and returns false with no state change; otherwise
`await t.watcher.stop()` runs first (when a watcher is present), then
`tasks.splice(idx, 1)` removes the task, then an immediate save and a
`deleted` broadcast. Returns the flag, the new state, and the ordered list
of steps performed. -/
def deleteTask (id : String) (wm : WM) : Bool × WM × List DelStep :=
  match wm.tasks.findIdx? (fun t => t.task.id == id) with
  | none => (false, wm, [])
  | some i =>
      match wm.tasks[i]? with
      | none => (false, wm, [])
      | some t =>
          let steps :=
            (if t.watcher.isSome then [DelStep.stopWatcher id] else []) ++
              [DelStep.removeFromRegistry id, DelStep.saveNow,
               DelStep.broadcastDeleted id]
          let wm1 := saveTasksToFileImmediate { wm with tasks := wm.tasks.eraseIdx i }
          (true, { wm1 with events := wm1.events ++ ["deleted"] }, steps)

/-- `shutdown()` (watcherManager.js:383-395): every task's watcher is
stopped (the `t.watcher` reference itself is kept), `t.status = 'stopped'`
is assigned unconditionally for every task, and then one immediate
(non-debounced) save runs. Closing the browser does not touch tasks. -/
def shutdown (wm : WM) : WM :=
  saveTasksToFileImmediate
    { wm with tasks :=
        wm.tasks.map (fun t => { t with task := { t.task with status := .stopped } }) }

theorem saveImmediate_tasks (wm : WM) :
    (saveTasksToFileImmediate wm).tasks = wm.tasks := by
  unfold saveTasksToFileImmediate
  split <;> rfl

theorem saveImmediate_timers (wm : WM) :
    (saveTasksToFileImmediate wm).timers = wm.timers := by
  unfold saveTasksToFileImmediate
  split <;> rfl

theorem saveImmediate_saveTimer (wm : WM) :
    (saveTasksToFileImmediate wm).saveTimer = wm.saveTimer := by
  unfold saveTasksToFileImmediate
  split <;> rfl

theorem saveImmediate_lastSaved (wm : WM) :
    (saveTasksToFileImmediate wm).lastSavedJson = some (persistedView wm) := by
  unfold saveTasksToFileImmediate
  split
  · next h => exact h
  · rfl

theorem saveImmediate_writes (wm : WM) :
    (saveTasksToFileImmediate wm).writes.length ≤ wm.writes.length + 1 := by
  unfold saveTasksToFileImmediate
  split
  · omega
  · simp

theorem persistedView_saveImmediate (wm : WM) :
    persistedView (saveTasksToFileImmediate wm) = persistedView wm := by
  unfold persistedView
  rw [saveImmediate_tasks]

theorem cancelSaveTimer_length (ts : List STimer) (st : Option Nat) :
    (cancelSaveTimer ts st).length = ts.length := by
  cases st with
  | none => rfl
  | some i =>
      simp only [cancelSaveTimer]
      cases h : ts[i]? with
      | none => simp [h]
      | some t => simp [h, List.length_set]

/-- C10: `shutdown()` sets the status of every task in the registry to
'stopped' — the loop at watcherManager.js:385-388 assigns
`t.status = 'stopped'` unconditionally, including for tasks in 'found' or
'error' — while leaving every other field of every task (in particular
`foundHref`) unchanged, and then performs the immediate, non-debounced save,
after which the persisted snapshot equals the final state. -/
theorem c10_shutdown_stops_all (wm : WM) :
    (shutdown wm).tasks.length = wm.tasks.length ∧
    (∀ (i : Nat) (t : RTask), wm.tasks[i]? = some t →
      (shutdown wm).tasks[i]? =
        some { t with task := { t.task with status := .stopped } }) ∧
    (shutdown wm).lastSavedJson = some (persistedView (shutdown wm)) ∧
    (shutdown wm).timers = wm.timers ∧
    (shutdown wm).saveTimer = wm.saveTimer := by
  refine ⟨?_, ?_, ?_, ?_, ?_⟩
  · unfold shutdown
    rw [saveImmediate_tasks]
    simp
  · intro i t ht
    unfold shutdown
    rw [saveImmediate_tasks]
    simp [List.getElem?_map, ht]
  · unfold shutdown
    rw [persistedView_saveImmediate, saveImmediate_lastSaved]
  · unfold shutdown
    rw [saveImmediate_timers]
  · unfold shutdown
    rw [saveImmediate_saveTimer]

/-- A found task with a recorded href, used as a shutdown input. -/
def taskFoundEx : Task :=
  { id := "f1", identifier := "ET9", status := .found, createdAt := "t1",
    foundHref := some "https://in.bookmyshow.com/m/ET9" }

/-- An errored task, used as a shutdown input. -/
def taskErrEx : Task :=
  { id := "e1", identifier := "ET8", status := .error, createdAt := "t2" }

/-- A registry holding one found and one errored task. -/
def wmShutEx : WM :=
  { tasks := [{ task := taskFoundEx, watcher := none },
              { task := taskErrEx, watcher := none }],
    lastSavedJson := none, timers := [], saveTimer := none,
    writes := [], events := [] }

/-- Witness for `c10_shutdown_stops_all`: shutting down a registry with a
found task yields that task with status 'stopped' and its `foundHref`
intact. -/
theorem c10_shutdown_stops_all_witness :
    (shutdown wmShutEx).tasks[0]? =
      some { task := { taskFoundEx with status := .stopped }, watcher := none } :=
  (c10_shutdown_stops_all wmShutEx).2.1 0 { task := taskFoundEx, watcher := none }
    (by decide)

/-- A manager state with no tasks and nothing persisted yet. -/
def emptyWM : WM :=
  { tasks := [], lastSavedJson := none, timers := [], saveTimer := none,
    writes := [], events := [] }

/-- C4 counterexample: a creation request whose target URL and search
identifier are both non-empty is still rejected before any task is
inserted, because the route (server/index.js,
`if (!location || !cinemaUrl || !identifier)`) also requires a non-empty
`location` — contradicting the claim that a spec with non-empty target URL
and search identifier is created. -/
theorem c4_location_also_required :
    ("https://in.bookmyshow.com/cinemas/pvr" ≠ "" ∧ "ET00418958" ≠ "") ∧
    apiCreateTask "" "PVR" "https://in.bookmyshow.com/cinemas/pvr" "ET00418958"
      none "task-1" "t0" 0 emptyWM =
      Except.error "location, cinemaUrl, identifier required" :=
  ⟨⟨by decide, by decide⟩, rfl⟩

/-- C4 (amended): creating a task with an empty target URL, an empty search
identifier, or an empty location fails with the route's validation error
before any resource is touched and inserts no task; when all three are
non-empty, the task is appended with the allocated id and status 'starting',
no immediate write happens, a debounced persistence write is scheduled
(one fresh timer, pointed at by `_saveTimer`), and the id is returned
synchronously; the id is fresh whenever the allocated id string is not
already in the registry. -/
theorem c4_create_validation (location cinemaName cinemaUrl identifier : String)
    (bset : Option String) (idStr createdAt : String) (now : Nat) (wm : WM) :
    ((location = "" ∨ cinemaUrl = "" ∨ identifier = "") →
      apiCreateTask location cinemaName cinemaUrl identifier bset idStr createdAt now wm =
        Except.error "location, cinemaUrl, identifier required") ∧
    (location ≠ "" → cinemaUrl ≠ "" → identifier ≠ "" →
      ∃ wm' : WM,
        apiCreateTask location cinemaName cinemaUrl identifier bset idStr createdAt now wm =
          Except.ok (idStr, wm') ∧
        wm'.tasks = wm.tasks ++
          [{ task := { id := idStr, location := some location,
                       cinemaName := strToOpt cinemaName,
                       cinemaUrl := some cinemaUrl, identifier := identifier,
                       status := .starting, createdAt := createdAt,
                       href := some cinemaUrl, foundHref := none,
                       bookingSettings := bset }, watcher := none }] ∧
        wm'.writes = wm.writes ∧
        wm'.timers.length = wm.timers.length + 1 ∧
        wm'.timers[wm.timers.length]? =
          some { due := now + 300, cancelled := false, fired := false } ∧
        wm'.saveTimer = some wm.timers.length ∧
        (idStr ∉ (persistedView wm).map (fun t => t.id) →
          ((persistedView wm').map (fun t => t.id)).count idStr = 1)) := by
  constructor
  · intro hbad
    simp only [apiCreateTask, if_pos hbad]
  · intro hl hu hi
    have hcond : ¬(location = "" ∨ cinemaUrl = "" ∨ identifier = "") := by
      push_neg
      exact ⟨hl, hu, hi⟩
    have hlen := cancelSaveTimer_length wm.timers wm.saveTimer
    refine ⟨(createTask idStr createdAt (strToOpt location) (strToOpt cinemaName)
      (strToOpt cinemaUrl) identifier bset now wm).2, ?_, ?_, ?_, ?_, ?_, ?_, ?_⟩
    · simp only [apiCreateTask, if_neg hcond]
      rfl
    · simp [createTask, saveTasksToFileDebounced, strToOpt, hl, hu]
    · simp [createTask, saveTasksToFileDebounced]
    · simp [createTask, saveTasksToFileDebounced, cancelSaveTimer_length]
    · show ((cancelSaveTimer wm.timers wm.saveTimer) ++
          [{ due := now + 300, cancelled := false, fired := false }])[wm.timers.length]? =
          some { due := now + 300, cancelled := false, fired := false }
      rw [← hlen]
      exact List.getElem?_concat_length _ _
    · show some (cancelSaveTimer wm.timers wm.saveTimer).length = some wm.timers.length
      rw [hlen]
    · intro hno
      have hview : persistedView (createTask idStr createdAt (strToOpt location)
          (strToOpt cinemaName) (strToOpt cinemaUrl) identifier bset now wm).2 =
          persistedView wm ++
            [{ id := idStr, location := strToOpt location,
               cinemaName := strToOpt cinemaName, cinemaUrl := strToOpt cinemaUrl,
               identifier := identifier, status := .starting,
               createdAt := createdAt, href := strToOpt cinemaUrl,
               foundHref := none, bookingSettings := bset }] := by
        simp [persistedView, createTask, saveTasksToFileDebounced]
      rw [hview]
      rw [List.map_append, List.count_append]
      rw [List.count_eq_zero.mpr hno]
      simp

/-- Witness for `c4_create_validation`: an empty location is rejected, and a
fully populated spec is accepted with the allocated id returned. -/
theorem c4_create_validation_witness :
    (apiCreateTask "" "PVR" "https://in.bookmyshow.com/c" "ET1" none
      "task-7" "t0" 5 emptyWM =
      Except.error "location, cinemaUrl, identifier required") ∧
    ∃ wm' : WM, apiCreateTask "Chennai" "PVR" "https://in.bookmyshow.com/c"
      "ET1" none "task-7" "t0" 5 emptyWM = Except.ok ("task-7", wm') := by
  constructor
  · exact (c4_create_validation "" "PVR" "https://in.bookmyshow.com/c" "ET1"
      none "task-7" "t0" 5 emptyWM).1 (Or.inl rfl)
  · obtain ⟨wm', h1, _⟩ := (c4_create_validation "Chennai" "PVR"
      "https://in.bookmyshow.com/c" "ET1" none "task-7" "t0" 5 emptyWM).2
      (by decide) (by decide) (by decide)
    exact ⟨wm', h1⟩

/-- C5: removing a task with an unknown id fails — the manager returns false
(reported by the route as a failure, the spec's NotFoundError for an unknown
task id) — and leaves the manager state entirely unchanged; removing a known
id returns true, and its step trace stops the task's Watch Session (when one
is live) strictly before the registry removal, which is followed by the
immediate save (after which the persisted snapshot equals the new registry)
and the `deleted` broadcast. -/
theorem c5_delete_semantics (id : String) (wm : WM) :
    ((∀ t ∈ wm.tasks, t.task.id ≠ id) → deleteTask id wm = (false, wm, [])) ∧
    (∀ (i : Nat) (t : RTask),
      wm.tasks.findIdx? (fun t => t.task.id == id) = some i →
      wm.tasks[i]? = some t →
      (deleteTask id wm).1 = true ∧
      (deleteTask id wm).2.1.tasks = wm.tasks.eraseIdx i ∧
      (deleteTask id wm).2.1.lastSavedJson =
        some (persistedView (deleteTask id wm).2.1) ∧
      (deleteTask id wm).2.2 =
        (if t.watcher.isSome then [DelStep.stopWatcher id] else []) ++
          [DelStep.removeFromRegistry id, DelStep.saveNow,
           DelStep.broadcastDeleted id]) := by
  constructor
  · intro hno
    have hfind : wm.tasks.findIdx? (fun t => t.task.id == id) = none := by
      rw [List.findIdx?_eq_none_iff]
      intro t ht
      simpa using hno t ht
    simp [deleteTask, hfind]
  · intro i t hfind ht
    refine ⟨?_, ?_, ?_, ?_⟩
    · simp [deleteTask, hfind, ht]
    · simp [deleteTask, hfind, ht, saveImmediate_tasks]
    · simp only [deleteTask, hfind, ht]
      show (saveTasksToFileImmediate _).lastSavedJson = _
      rw [saveImmediate_lastSaved]
      congr 1
      show persistedView _ =
        persistedView (saveTasksToFileImmediate { wm with tasks := wm.tasks.eraseIdx i })
      rw [persistedView_saveImmediate]
    · simp [deleteTask, hfind, ht]

/-- A running task with a live watcher, input for the delete witness. -/
def taskDelEx : Task :=
  { id := "d1", identifier := "ET5", status := .running, createdAt := "t3" }

/-- A registry holding `taskDelEx` with a live watcher. -/
def wmDelEx : WM :=
  { tasks := [{ task := taskDelEx, watcher := some freshWatcher }],
    lastSavedJson := none, timers := [], saveTimer := none,
    writes := [], events := [] }

/-- Witness for `c5_delete_semantics`: deleting an unknown id changes
nothing, and deleting the live task stops its watcher before removing it. -/
theorem c5_delete_semantics_witness :
    deleteTask "zzz" wmDelEx = (false, wmDelEx, []) ∧
    (deleteTask "d1" wmDelEx).1 = true ∧
    (deleteTask "d1" wmDelEx).2.2 =
      [DelStep.stopWatcher "d1", DelStep.removeFromRegistry "d1",
       DelStep.saveNow, DelStep.broadcastDeleted "d1"] := by
  refine ⟨?_, ?_, ?_⟩
  · exact (c5_delete_semantics "zzz" wmDelEx).1 (by decide)
  · exact ((c5_delete_semantics "d1" wmDelEx).2 0
      { task := taskDelEx, watcher := some freshWatcher } (by decide) (by decide)).1
  · have h := ((c5_delete_semantics "d1" wmDelEx).2 0
      { task := taskDelEx, watcher := some freshWatcher } (by decide) (by decide)).2.2.2
    simpa using h

/-- A timer that can still fire: neither cancelled nor already run. -/
def activeTimer (t : STimer) : Bool := !t.cancelled && !t.fired

/-- Number of timers that can still fire. -/
def activeCount (ts : List STimer) : Nat := ts.countP activeTimer

/-- `_saveTimer` always points at the only timer that can still fire: every
still-armable `setTimeout` handle is the one stored in `this._saveTimer`
(watcherManager.js:109-110 cancel any previous one before arming a new
one). States reached through the manager's save paths satisfy this. -/
def TimerInv (wm : WM) : Prop :=
  ∀ (i : Nat) (t : STimer), wm.timers[i]? = some t → activeTimer t = true →
    wm.saveTimer = some i

theorem countP_eq_zero_of_getElem {α : Type} (p : α → Bool) (l : List α)
    (h : ∀ (i : Nat) (a : α), l[i]? = some a → p a = false) :
    l.countP p = 0 := by
  induction l with
  | nil => rfl
  | cons x xs ih =>
      have h0 : p x = false := h 0 x (by simp)
      have ht : xs.countP p = 0 :=
        ih (fun i a ha => h (i + 1) a (by simpa using ha))
      simp [List.countP_cons, h0, ht]

theorem cancel_inactive (wm : WM) (hInv : TimerInv wm) (i : Nat) (t : STimer)
    (h : (cancelSaveTimer wm.timers wm.saveTimer)[i]? = some t) :
    activeTimer t = false := by
  cases hst : wm.saveTimer with
  | none =>
      rw [hst] at h
      simp only [cancelSaveTimer] at h
      cases hb : activeTimer t
      · rfl
      · have := hInv i t h hb
        rw [hst] at this
        exact absurd this (by simp)
  | some j =>
      rw [hst] at h
      simp only [cancelSaveTimer] at h
      cases hj : wm.timers[j]? with
      | none =>
          rw [hj] at h
          cases hb : activeTimer t
          · rfl
          · have := hInv i t h hb
            rw [hst] at this
            injection this with hij
            subst hij
            rw [hj] at h
            simp at h
      | some tj =>
          rw [hj] at h
          have hlt : j < wm.timers.length := (List.getElem?_eq_some.mp hj).1
          by_cases hij : j = i
          · subst hij
            rw [List.getElem?_set] at h
            simp [hlt] at h
            rw [← h]
            simp [activeTimer]
          · rw [List.getElem?_set] at h
            simp [hij] at h
            cases hb : activeTimer t
            · rfl
            · have := hInv i t h hb
              rw [hst] at this
              injection this with hcon
              exact absurd hcon hij

theorem sched_TimerInv (now : Nat) (wm : WM) (hInv : TimerInv wm) :
    TimerInv (saveTasksToFileDebounced now wm) ∧
    activeCount (saveTasksToFileDebounced now wm).timers = 1 ∧
    (saveTasksToFileDebounced now wm).writes = wm.writes ∧
    (saveTasksToFileDebounced now wm).tasks = wm.tasks ∧
    (saveTasksToFileDebounced now wm).lastSavedJson = wm.lastSavedJson := by
  have hz : activeCount (cancelSaveTimer wm.timers wm.saveTimer) = 0 :=
    countP_eq_zero_of_getElem _ _ (fun i t h => cancel_inactive wm hInv i t h)
  refine ⟨?_, ?_, rfl, rfl, rfl⟩
  · intro i t h ha
    show some (cancelSaveTimer wm.timers wm.saveTimer).length = some i
    by_cases hi : i < (cancelSaveTimer wm.timers wm.saveTimer).length
    · have h' : (cancelSaveTimer wm.timers wm.saveTimer)[i]? = some t := by
        have := h
        simp only [saveTasksToFileDebounced] at this
        rwa [List.getElem?_append_left hi] at this
      have := cancel_inactive wm hInv i t h'
      rw [this] at ha
      exact absurd ha (by decide)
    · have hge : (cancelSaveTimer wm.timers wm.saveTimer).length ≤ i :=
        Nat.le_of_not_lt hi
      have h' : ([{ due := now + 300, cancelled := false, fired := false }] :
          List STimer)[i - (cancelSaveTimer wm.timers wm.saveTimer).length]? = some t := by
        have := h
        simp only [saveTasksToFileDebounced] at this
        rwa [List.getElem?_append_right hge] at this
      have hlen : i - (cancelSaveTimer wm.timers wm.saveTimer).length = 0 := by
        cases hd : i - (cancelSaveTimer wm.timers wm.saveTimer).length with
        | zero => rfl
        | succ k =>
            rw [hd] at h'
            simp at h'
      rw [hlen] at h'
      have : i = (cancelSaveTimer wm.timers wm.saveTimer).length := by omega
      rw [this]
  · show activeCount (cancelSaveTimer wm.timers wm.saveTimer ++
      [{ due := now + 300, cancelled := false, fired := false }]) = 1
    unfold activeCount at hz ⊢
    rw [List.countP_append, hz]
    simp [activeTimer]

theorem schedSaves_inv (ts : List Nat) (wm : WM) (hInv : TimerInv wm)
    (hle : activeCount wm.timers ≤ 1) :
    TimerInv (schedSaves ts wm) ∧ activeCount (schedSaves ts wm).timers ≤ 1 ∧
    (schedSaves ts wm).writes = wm.writes := by
  induction ts generalizing wm with
  | nil => exact ⟨hInv, hle, rfl⟩
  | cons t rest ih =>
      obtain ⟨g1, g2, g3, _, _⟩ := sched_TimerInv t wm hInv
      obtain ⟨k1, k2, k3⟩ := ih (saveTasksToFileDebounced t wm) g1 (by omega)
      refine ⟨?_, ?_, ?_⟩
      · simpa [schedSaves, List.foldl_cons] using k1
      · simpa [schedSaves, List.foldl_cons] using k2
      · show (schedSaves (t :: rest) wm).writes = wm.writes
        simp only [schedSaves, List.foldl_cons] at k3 ⊢
        rw [k3, g3]

theorem fire_TimerInv (i : Nat) (wm : WM) (hInv : TimerInv wm) :
    TimerInv (fireSaveTimer i wm) ∧
    (fireSaveTimer i wm).writes.length + activeCount (fireSaveTimer i wm).timers ≤
      wm.writes.length + activeCount wm.timers := by
  cases hti : wm.timers[i]? with
  | none =>
      have hres : fireSaveTimer i wm = wm := by simp [fireSaveTimer, hti]
      rw [hres]
      exact ⟨hInv, le_refl _⟩
  | some t =>
      by_cases hcf : (t.cancelled || t.fired) = true
      · have hres : fireSaveTimer i wm = wm := by simp [fireSaveTimer, hti, hcf]
        rw [hres]
        exact ⟨hInv, le_refl _⟩
      · have hco : t.cancelled = false ∧ t.fired = false := by
          cases hc : t.cancelled <;> cases hf : t.fired <;>
            simp [hc, hf] at hcf ⊢
        have hact : activeTimer t = true := by
          simp [activeTimer, hco.1, hco.2]
        have hlt : i < wm.timers.length := (List.getElem?_eq_some.mp hti).1
        have hres : fireSaveTimer i wm =
            saveTasksToFileImmediate
              { wm with timers := wm.timers.set i { t with fired := true } } := by
          simp [fireSaveTimer, hti, hcf]
        have hcnt := countP_set activeTimer wm.timers i t { t with fired := true } hti
        rw [hact] at hcnt
        have hinact : activeTimer { t with fired := true } = false := by
          simp [activeTimer]
        rw [hinact] at hcnt
        simp at hcnt
        constructor
        · intro k u hk hu
          rw [hres, saveImmediate_timers] at hk
          rw [hres, saveImmediate_saveTimer]
          show wm.saveTimer = some k
          by_cases hik : i = k
          · subst hik
            rw [List.getElem?_set] at hk
            simp [hlt] at hk
            rw [← hk] at hu
            rw [hinact] at hu
            exact absurd hu (by decide)
          · rw [List.getElem?_set] at hk
            simp [hik] at hk
            exact hInv k u hk hu
        · have hw : (saveTasksToFileImmediate
              { wm with timers := wm.timers.set i { t with fired := true } }).writes.length ≤
              wm.writes.length + 1 := by
            have := saveImmediate_writes
              { wm with timers := wm.timers.set i { t with fired := true } }
            simpa using this
          have htim : (saveTasksToFileImmediate
              { wm with timers := wm.timers.set i { t with fired := true } }).timers =
              wm.timers.set i { t with fired := true } :=
            saveImmediate_timers _
          rw [hres, htim]
          unfold activeCount
          omega

theorem fireTimers_bound (is : List Nat) (wm : WM) (hInv : TimerInv wm) :
    TimerInv (fireTimers is wm) ∧
    (fireTimers is wm).writes.length + activeCount (fireTimers is wm).timers ≤
      wm.writes.length + activeCount wm.timers := by
  induction is generalizing wm with
  | nil => exact ⟨hInv, le_refl _⟩
  | cons i rest ih =>
      obtain ⟨g1, g2⟩ := fire_TimerInv i wm hInv
      obtain ⟨k1, k2⟩ := ih (fireSaveTimer i wm) g1
      refine ⟨?_, ?_⟩
      · simpa [fireTimers, List.foldl_cons] using k1
      · simp only [fireTimers, List.foldl_cons] at k2 ⊢
        omega

theorem stopTask_timers (id : String) (wm : WM) :
    (stopTask id wm).2.timers = wm.timers ∧
    (stopTask id wm).2.saveTimer = wm.saveTimer := by
  cases hf : wm.tasks.findIdx? (fun t => t.task.id == id) with
  | none => simp [stopTask, hf]
  | some i =>
      cases ht : wm.tasks[i]? with
      | none => simp [stopTask, hf, ht]
      | some t =>
          constructor
          · simp only [stopTask, hf, ht]
            rw [saveImmediate_timers]
          · simp only [stopTask, hf, ht]
            rw [saveImmediate_saveTimer]

theorem stopTask_persisted (id : String) (wm : WM) (h : (stopTask id wm).1 = true) :
    (stopTask id wm).2.lastSavedJson = some (persistedView (stopTask id wm).2) := by
  cases hf : wm.tasks.findIdx? (fun t => t.task.id == id) with
  | none => simp [stopTask, hf] at h
  | some i =>
      cases ht : wm.tasks[i]? with
      | none => simp [stopTask, hf, ht] at h
      | some t =>
          simp only [stopTask, hf, ht]
          show (saveTasksToFileImmediate _).lastSavedJson = _
          rw [saveImmediate_lastSaved]
          congr 1
          show persistedView _ = persistedView (saveTasksToFileImmediate _)
          rw [persistedView_saveImmediate]

theorem deleteTask_timers (id : String) (wm : WM) :
    (deleteTask id wm).2.1.timers = wm.timers ∧
    (deleteTask id wm).2.1.saveTimer = wm.saveTimer := by
  cases hf : wm.tasks.findIdx? (fun t => t.task.id == id) with
  | none => simp [deleteTask, hf]
  | some i =>
      cases ht : wm.tasks[i]? with
      | none => simp [deleteTask, hf, ht]
      | some t =>
          constructor
          · simp only [deleteTask, hf, ht]
            rw [saveImmediate_timers]
          · simp only [deleteTask, hf, ht]
            rw [saveImmediate_saveTimer]

theorem deleteTask_persisted (id : String) (wm : WM)
    (h : (deleteTask id wm).1 = true) :
    (deleteTask id wm).2.1.lastSavedJson =
      some (persistedView (deleteTask id wm).2.1) := by
  cases hf : wm.tasks.findIdx? (fun t => t.task.id == id) with
  | none => simp [deleteTask, hf] at h
  | some i =>
      cases ht : wm.tasks[i]? with
      | none => simp [deleteTask, hf, ht] at h
      | some t =>
          simp only [deleteTask, hf, ht]
          show (saveTasksToFileImmediate _).lastSavedJson = _
          rw [saveImmediate_lastSaved]
          congr 1
          show persistedView _ = persistedView (saveTasksToFileImmediate _)
          rw [persistedView_saveImmediate]

/-- C6 (amended): any burst of debounced save schedulings — each
`_saveTasksToFile` call cancels the previously armed timer before arming a
fresh one — followed by the timeout callbacks running in any order produces
at most one additional physical write; and an explicit `stopTask` or
`deleteTask` bypasses the debounce machinery entirely (the timers and
`_saveTimer` are untouched) and runs the immediate save synchronously, after
which the persisted snapshot equals the new state — though the immediate
save performs no physical write when the serialized snapshot already equals
the last written one. -/
theorem c6_debounce_coalesce_and_immediate :
    (∀ (wm : WM) (ts : List Nat) (is : List Nat), TimerInv wm →
      activeCount wm.timers ≤ 1 →
      (fireTimers is (schedSaves ts wm)).writes.length ≤ wm.writes.length + 1) ∧
    (∀ (id : String) (wm : WM),
      (stopTask id wm).2.timers = wm.timers ∧
      (stopTask id wm).2.saveTimer = wm.saveTimer ∧
      ((stopTask id wm).1 = true →
        (stopTask id wm).2.lastSavedJson =
          some (persistedView (stopTask id wm).2)) ∧
      (deleteTask id wm).2.1.timers = wm.timers ∧
      (deleteTask id wm).2.1.saveTimer = wm.saveTimer ∧
      ((deleteTask id wm).1 = true →
        (deleteTask id wm).2.1.lastSavedJson =
          some (persistedView (deleteTask id wm).2.1))) := by
  constructor
  · intro wm ts is hInv hle
    obtain ⟨s1, s2, s3⟩ := schedSaves_inv ts wm hInv hle
    obtain ⟨_, f2⟩ := fireTimers_bound is (schedSaves ts wm) s1
    have : (schedSaves ts wm).writes.length = wm.writes.length := by rw [s3]
    omega
  · intro id wm
    exact ⟨(stopTask_timers id wm).1, (stopTask_timers id wm).2,
      stopTask_persisted id wm, (deleteTask_timers id wm).1,
      (deleteTask_timers id wm).2, deleteTask_persisted id wm⟩

/-- Witness for `c6_debounce_coalesce_and_immediate`: three rapid debounced
schedulings from a clean state, with every timer then firing, write once. -/
theorem c6_debounce_coalesce_and_immediate_witness :
    (fireTimers [0, 1, 2]
      (schedSaves [10, 20, 30]
        { tasks := [], lastSavedJson := none, timers := [], saveTimer := none,
          writes := [], events := [] })).writes.length ≤ 1 := by
  have h := c6_debounce_coalesce_and_immediate.1
    { tasks := [], lastSavedJson := none, timers := [], saveTimer := none,
      writes := [], events := [] } [10, 20, 30] [0, 1, 2]
    (by intro i t ht hact; simp at ht) (by decide)
  simpa using h

/-- A running task, input for the double-stop counterexample. -/
def taskStopEx : Task :=
  { id := "s1", identifier := "ET4", status := .running, createdAt := "t4" }

/-- A registry holding `taskStopEx`, already persisted in its current
state. -/
def wmStopEx : WM :=
  { tasks := [{ task := taskStopEx, watcher := none }],
    lastSavedJson := some [taskStopEx], timers := [], saveTimer := none,
    writes := [], events := [] }

/-- C6 counterexample: an explicit stop does not always produce a physical
write. The first `stopTask` changes the task's status and writes once; the
second `stopTask` on the same (now already-stopped, already-persisted) task
is still an explicit stop that returns true, yet
`_saveTasksToFileImmediate`'s dedup guard
(`if (this._lastSavedJson === json) return`, watcherManager.js:98) skips the
write, so the total write count stays 1. -/
theorem c6_second_stop_writes_nothing :
    (stopTask "s1" wmStopEx).2.writes.length = 1 ∧
    (stopTask "s1" (stopTask "s1" wmStopEx).2).1 = true ∧
    (stopTask "s1" (stopTask "s1" wmStopEx).2).2.writes.length = 1 := by
  refine ⟨by decide, by decide, by decide⟩

/-! ## C7: atomicity of snapshot writes

Filesystem-action traces of the two snapshot writers in the sources:
`scheduleWrite` in `server/storage.js` and `_saveTasksToFileImmediate` in
`server/watcherManager.js`. (`storage.js` is required by no module in the
sources; the live persistence path is the manager's.) -/

/-- A filesystem action performed by a snapshot writer. -/
inductive FsAct where
  | writeFile (file content : String)
  | renameFile (src dst : String)
deriving DecidableEq, Repr

/-- The timer body of `scheduleWrite` (storage.js:31-38):
`fs.writeFileSync(FILE + '.tmp', JSON.stringify(cache))` then
`fs.renameSync(FILE + '.tmp', FILE)`. -/
def storageScheduleWriteActions (file json : String) : List FsAct :=
  [.writeFile (file ++ ".tmp") json, .renameFile (file ++ ".tmp") file]

/-- The filesystem actions of `_saveTasksToFileImmediate`
(watcherManager.js:93-105): nothing when the serialization equals
`_lastSavedJson`; otherwise one direct
`fs.writeFileSync(this.tasksFile, json, 'utf8')` — no temporary file and no
rename. -/
def managerSaveActions (file json : String) (lastSavedJson : Option String) :
    List FsAct :=
  if lastSavedJson = some json then [] else [.writeFile file json]

/-- Write-to-temp-then-rename shape for a snapshot-write trace targeting
`file`: either no write at all, or a write to a distinct temporary file
followed by a rename of that file over `file`. A trace containing a direct
write to `file` itself is not atomic — a crash mid-write leaves a partial
snapshot. -/
def isTempThenRename (tr : List FsAct) (file : String) : Bool :=
  match tr with
  | [] => true
  | [.writeFile tmp _, .renameFile src dst] =>
      tmp == src && dst == file && !(tmp == file)
  | _ => false

/-- C7 counterexample: the live snapshot writer,
`_saveTasksToFileImmediate`, writes `tasks.json` directly — its trace is a
single `writeFile` of the snapshot file itself, not a temp-file write
followed by a rename — so a crash during this write can leave a partial or
corrupt snapshot, refuting the claim that every write of the persisted task
snapshot is atomic. -/
theorem c7_manager_write_not_atomic :
    managerSaveActions "tasks.json" "[snapshot-v1]" none =
      [.writeFile "tasks.json" "[snapshot-v1]"] ∧
    isTempThenRename (managerSaveActions "tasks.json" "[snapshot-v1]" none)
      "tasks.json" = false := by
  exact ⟨rfl, by decide⟩

/-- C7 (amended): the legacy `storage.js` writer is atomic — for every file
and content its trace is exactly write-temp-then-rename with a temporary
name distinct from the target — but the WatcherManager's
`_saveTasksToFileImmediate`, the persistence path actually wired up
(`storage.js` is required by nothing), writes the snapshot file directly
whenever the content changed, so those writes are not
write-to-temp-then-rename. -/
theorem c7_storage_atomic_manager_not (file json : String)
    (last : Option String) :
    isTempThenRename (storageScheduleWriteActions file json) file = true ∧
    (last ≠ some json →
      managerSaveActions file json last = [.writeFile file json] ∧
      (isTempThenRename (managerSaveActions file json last) file = true →
        file ++ ".tmp" = file)) := by
  have htmp : file ++ ".tmp" ≠ file := by
    intro hcon
    have hlen := congrArg String.length hcon
    rw [String.length_append] at hlen
    have h4 : (".tmp" : String).length = 4 := rfl
    omega
  constructor
  · simp [storageScheduleWriteActions, isTempThenRename, htmp]
  · intro hne
    have hma : managerSaveActions file json last = [.writeFile file json] := by
      simp [managerSaveActions, hne]
    refine ⟨hma, ?_⟩
    intro hat
    rw [hma] at hat
    simp [isTempThenRename] at hat

/-- Witness for `c7_storage_atomic_manager_not` at the actual snapshot file
name: the storage trace is atomic, the manager trace is a direct write. -/
theorem c7_storage_atomic_manager_not_witness :
    isTempThenRename (storageScheduleWriteActions "tasks.json" "[]")
      "tasks.json" = true ∧
    managerSaveActions "tasks.json" "[]" none =
      [.writeFile "tasks.json" "[]"] :=
  ⟨(c7_storage_atomic_manager_not "tasks.json" "[]" none).1,
   ((c7_storage_atomic_manager_not "tasks.json" "[]" none).2 (by decide)).1⟩

/-! ## C8: event broadcast -/

/-- An event handed to `_broadcast`: its type and payload, and whether
`JSON.stringify` succeeds on it (`serializable = false` models a cyclic or
otherwise unserializable object graph). -/
structure SseEvent where
  etype : String
  payload : String
  serializable : Bool
deriving DecidableEq, Repr

/-- `JSON.parse(JSON.stringify(obj))` (watcherManager.js:151): for a
serializable event the round trip yields a structurally equal deep copy,
detached from the manager's live object graph; otherwise `JSON.stringify`
throws. -/
def jsonRoundTrip (e : SseEvent) : Option SseEvent :=
  if e.serializable then some e else none

/-- The generic fallback event built in the catch branch
(watcherManager.js:151): `{ type: 'error', message: 'broadcast serialization
failed' }`. -/
def serializationErrorEvent : SseEvent :=
  { etype := "error", payload := "broadcast serialization failed",
    serializable := true }

/-- An SSE subscriber registered by `addSseClient`
(watcherManager.js:148): an identifier and a delivery callback that may
throw (modelled by `Except.error`). -/
structure SseClient where
  cid : Nat
  deliver : SseEvent → Except String Unit

/-- `_broadcast(obj)` (watcherManager.js:149-153): compute `safe` as the
JSON round trip of the event, degrading to the generic error event when
serialization throws; then invoke every subscriber in `this.sseClients`
with `safe`, each call wrapped in try/catch so a throwing subscriber
neither aborts the loop nor is removed. Returns each subscriber's call
result (which the loop discards) and the unchanged subscriber set. -/
def broadcastRun (clients : List SseClient) (e : SseEvent) :
    List (Nat × Except String Unit) × List SseClient :=
  let safe :=
    match jsonRoundTrip e with
    | some s => s
    | none => serializationErrorEvent
  (clients.map (fun c => (c.cid, c.deliver safe)), clients)

/-- C8: `_broadcast` hands every currently registered subscriber the JSON
round-tripped copy of the event — a value derived only from the event's
serializable content, detached from the manager's live objects, so mutating
a delivered event cannot change registry state — or the generic
serialization-error event when the event cannot be serialized; every
subscriber is invoked exactly once with that same value, even those after a
subscriber whose callback throws; the thrown errors are swallowed and the
subscriber set after the broadcast is unchanged (no subscriber removed). -/
theorem c8_broadcast_behaviour (clients : List SseClient) (e : SseEvent) :
    (broadcastRun clients e).2 = clients ∧
    (broadcastRun clients e).1.length = clients.length ∧
    (∀ (k : Nat) (c : SseClient), clients[k]? = some c →
      (broadcastRun clients e).1[k]? =
        some (c.cid, c.deliver
          (if e.serializable then e else serializationErrorEvent))) := by
  refine ⟨rfl, by simp [broadcastRun], ?_⟩
  intro k c hk
  cases hs : e.serializable <;>
    simp [broadcastRun, jsonRoundTrip, hs, List.getElem?_map, hk]

/-- A subscriber whose send callback succeeds. -/
def okClient : SseClient := { cid := 1, deliver := fun _ => Except.ok () }

/-- A subscriber whose send callback throws on delivery. -/
def badClient : SseClient :=
  { cid := 2, deliver := fun _ => Except.error "EPIPE" }

/-- An unserializable event (e.g. carrying a cyclic reference). -/
def cyclicEvent : SseEvent :=
  { etype := "found", payload := "task", serializable := false }

/-- Witness for `c8_broadcast_behaviour`: with a throwing subscriber first
in the set and an unserializable event, the second subscriber still receives
the generic serialization-error event and the subscriber set is unchanged. -/
theorem c8_broadcast_behaviour_witness :
    (broadcastRun [badClient, okClient] cyclicEvent).1[1]? =
      some (okClient.cid, okClient.deliver serializationErrorEvent) ∧
    (broadcastRun [badClient, okClient] cyclicEvent).2 =
      [badClient, okClient] := by
  constructor
  · have h := (c8_broadcast_behaviour [badClient, okClient] cyclicEvent).2.2
      1 okClient rfl
    simpa [cyclicEvent] using h
  · exact (c8_broadcast_behaviour [badClient, okClient] cyclicEvent).1

/-! ## C9: resumption on process start -/

/-- `_resumeTaskWatcher(task)` (watcherManager.js:369-381): set status
'starting', await `_startTaskWatcher` (which assigns a fresh watcher to
`task.watcher` before awaiting its start); on success set status 'running'
(then debounced save and a `resumed` broadcast); on failure the catch sets
status 'error' (the watcher reference remains assigned). `ok` says whether
the start succeeds. Returns the updated task and its status trajectory. -/
def resumeTaskWatcher (ok : Bool) (t : RTask) : RTask × List Status :=
  if ok then
    ({ task := { t.task with status := .running }, watcher := some freshWatcher },
     [.starting, .running])
  else
    ({ task := { t.task with status := .error }, watcher := some freshWatcher },
     [.starting, .error])

/-- `_loadTasksFromFile` (watcherManager.js:64-91): every persisted record
is rehydrated with `watcher: null` (line 74); the loop at lines 78-86 calls
`_resumeTaskWatcher` exactly for tasks whose persisted status is 'running'
or 'starting'; every other task is left exactly as loaded. `ok` tells
whether the watcher start succeeds for a given task id. -/
def loadTasksFromFile (ok : String → Bool) (persisted : List Task) :
    List RTask :=
  persisted.map (fun t =>
    if t.status = .running ∨ t.status = .starting then
      (resumeTaskWatcher (ok t.id) { task := t, watcher := none }).1
    else { task := t, watcher := none })

/-- C9: on process start, every persisted task whose status is 'running' or
'starting' is resumed — a fresh Watch Session is attached and the task's
status passes through 'starting' and ends in 'running' on success or
'error' on failure, with every other field preserved — while every task
persisted in any other status ('found', 'stopped', 'error') is loaded
as-is, with no live watcher. -/
theorem c9_resume_on_load (ok : String → Bool) (persisted : List Task) :
    (loadTasksFromFile ok persisted).length = persisted.length ∧
    (∀ (i : Nat) (t : Task), persisted[i]? = some t →
      ((t.status = .running ∨ t.status = .starting) →
        (loadTasksFromFile ok persisted)[i]? = some
          { task := { t with status := if ok t.id then .running else .error },
            watcher := some freshWatcher } ∧
        (resumeTaskWatcher (ok t.id) { task := t, watcher := none }).2 =
          [.starting, if ok t.id then .running else .error]) ∧
      (¬(t.status = .running ∨ t.status = .starting) →
        (loadTasksFromFile ok persisted)[i]? =
          some { task := t, watcher := none })) := by
  constructor
  · simp [loadTasksFromFile]
  · intro i t ht
    constructor
    · intro hrs
      constructor
      · simp only [loadTasksFromFile, List.getElem?_map, ht, Option.map_some']
        rw [if_pos hrs]
        cases hok : ok t.id <;> simp [resumeTaskWatcher, hok]
      · cases hok : ok t.id <;> simp [resumeTaskWatcher, hok]
    · intro hrs
      simp only [loadTasksFromFile, List.getElem?_map, ht, Option.map_some']
      rw [if_neg hrs]

/-- Persisted snapshot for the load witness: one running, one starting, one
found and one stopped task. -/
def persistedEx : List Task :=
  [{ id := "r1", identifier := "ET1", status := .running, createdAt := "p1" },
   { id := "r2", identifier := "ET2", status := .starting, createdAt := "p2" },
   { id := "r3", identifier := "ET3", status := .found, createdAt := "p3",
     foundHref := some "https://in.bookmyshow.com/m/ET3" },
   { id := "r4", identifier := "ET4", status := .stopped, createdAt := "p4" }]

/-- Start outcome for the load witness: only task `r1`'s watcher starts. -/
def okEx : String → Bool := fun id => id == "r1"

/-- Witness for `c9_resume_on_load`: the running task resumes to 'running'
with a fresh watcher, the starting task whose start fails ends in 'error',
and the found task is loaded untouched. -/
theorem c9_resume_on_load_witness :
    (loadTasksFromFile okEx persistedEx)[0]? = some
      { task := { id := "r1", identifier := "ET1", status := .running,
                  createdAt := "p1" }, watcher := some freshWatcher } ∧
    (loadTasksFromFile okEx persistedEx)[1]? = some
      { task := { id := "r2", identifier := "ET2", status := .error,
                  createdAt := "p2" }, watcher := some freshWatcher } ∧
    (loadTasksFromFile okEx persistedEx)[2]? = some
      { task := { id := "r3", identifier := "ET3", status := .found,
                  createdAt := "p3",
                  foundHref := some "https://in.bookmyshow.com/m/ET3" },
        watcher := none } := by
  refine ⟨?_, ?_, ?_⟩
  · have h := (((c9_resume_on_load okEx persistedEx).2 0
      { id := "r1", identifier := "ET1", status := .running, createdAt := "p1" }
      rfl).1 (Or.inl rfl)).1
    simpa [okEx] using h
  · have h := (((c9_resume_on_load okEx persistedEx).2 1
      { id := "r2", identifier := "ET2", status := .starting, createdAt := "p2" }
      rfl).1 (Or.inr rfl)).1
    simpa [okEx] using h
  · exact ((c9_resume_on_load okEx persistedEx).2 2
      { id := "r3", identifier := "ET3", status := .found, createdAt := "p3",
        foundHref := some "https://in.bookmyshow.com/m/ET3" } rfl).2 (by decide)

end BMSWatch
